import Mathlib

/-!
Verification of the glob-import resolution / codegen engine and the logger
of this repository.

The repository ships the logger implementation (`packages/vite/src/node/logger.ts`)
and the glob-import test suite (`playground/glob-import/__tests__/glob-import.spec.ts`);
the glob-import engine itself is not part of the source tree, so its data model and
operations are modelled from the specification (each such definition carries a
`Modelled from the spec:` doc comment).  Paths are represented as lists of
segments; file bytes are represented as text (`String`).
-/

namespace VGlob

/-- Lexicographic (code-point) comparison of character lists, used to order
specifiers deterministically. -/
def charListLE : List Char → List Char → Bool
  | [], _ => true
  | _ :: _, [] => false
  | a :: as, b :: bs =>
    if a.toNat < b.toNat then true
    else if b.toNat < a.toNat then false
    else charListLE as bs

/-- Modelled from the spec: the lexicographic order on specifiers used to sort
a MatchSet ("paths are lexicographically sorted by specifier"). -/
def specLE (a b : String) : Bool := charListLE a.data b.data

/-- Modelled from the spec: one segment of a glob pattern — a literal segment,
a single-segment wildcard with an extension filter (empty filter = bare `*`),
or the recursive wildcard `**`. -/
inductive PatSeg where
  | lit (s : String)
  | star (ext : String)
  | globstar
deriving DecidableEq

/-- Modelled from the spec: segment-wise glob matching.  `star ext` matches one
segment whose text ends with `ext`; `globstar` matches any (possibly empty)
run of segments. -/
def patMatch : List PatSeg → List String → Bool
  | [], xs => xs.isEmpty
  | .lit s :: ps, xs =>
    match xs with
    | x :: xs2 => (s == x) && patMatch ps xs2
    | [] => false
  | .star ext :: ps, xs =>
    match xs with
    | x :: xs2 => ext.data.isSuffixOf x.data && patMatch ps xs2
    | [] => false
  | .globstar :: ps, xs => (xs.tails).any (fun ys => patMatch ps ys)

/-- Modelled from the spec: one pattern of a directive.  `aliasRoot` is the
resolved alias anchor (token and configured root) when the pattern begins with
an alias token; `up` counts leading `../` segments of a non-alias pattern. -/
structure GlobPattern where
  aliasRoot : Option (String × List String)
  up : Nat
  segs : List PatSeg
deriving DecidableEq

/-- Modelled from the spec: the per-directive load mode (`as` option). -/
inductive AsMode where
  | module
  | raw
  | url
deriving DecidableEq

/-- Modelled from the spec: a directive's options (`eager`, `as`, and the
optional named-export filter `importBinding`). -/
structure GlobOptions where
  eager : Bool
  asMode : AsMode
  importBinding : Option String
deriving DecidableEq

/-- Modelled from the spec: one parsed glob-import directive. -/
structure GlobDirective where
  patterns : List GlobPattern
  declaringDir : List String
  opts : GlobOptions
deriving DecidableEq

/-- Modelled from the spec: a pattern is anchored at the declaring file's
directory (after stripping `up` levels) unless it begins with an alias token,
in which case it is anchored at the alias's configured root. -/
def anchorOf (d : GlobDirective) (pat : GlobPattern) : List String :=
  match pat.aliasRoot with
  | some ar => ar.2
  | none => d.declaringDir.take (d.declaringDir.length - pat.up)

/-- Modelled from the spec: raw glob match of a path against one pattern
(anchor is a path-segment prefix and the pattern matches the remainder),
before exclusion rules. -/
def rawMatch (d : GlobDirective) (pat : GlobPattern) (p : List String) : Bool :=
  (anchorOf d pat).isPrefixOf p && patMatch pat.segs (p.drop (anchorOf d pat).length)

/-- A path contains a dependency-directory (`node_modules`) segment. -/
def pathHasNodeModules (p : List String) : Bool :=
  p.any (fun s => s == "node_modules")

/-- A pattern literally contains a `node_modules` segment (explicit opt-in). -/
def patHasNodeModules (pat : GlobPattern) : Bool :=
  pat.segs.any (fun s =>
    match s with
    | .lit l => l == "node_modules"
    | _ => false)

/-- Modelled from the spec: a pattern keeps a matched path unless the path
contains a dependency-directory segment that the pattern does not literally
opt into. -/
def keepMatch (d : GlobDirective) (pat : GlobPattern) (p : List String) : Bool :=
  rawMatch d pat p && (!pathHasNodeModules p || patHasNodeModules pat)

/-- First pattern of the directive that matches and keeps the path. -/
def findPat (d : GlobDirective) (p : List String) : Option GlobPattern :=
  d.patterns.find? (fun pat => keepMatch d pat p)

/-- A path belongs to the directive's match set. -/
def dirMatches (d : GlobDirective) (p : List String) : Bool :=
  (findPat d p).isSome

/-- Length of the common leading-segment run of two paths. -/
def commonLen : List String → List String → Nat
  | a :: as, b :: bs => if a = b then commonLen as bs + 1 else 0
  | _, _ => 0

/-- `n` copies of the parent-directory step `../`. -/
def dotDots : Nat → String
  | 0 => ""
  | n + 1 => "../" ++ dotDots n

/-- Modelled from the spec: the non-alias specifier — the matched path
expressed relative to the declaring file's directory, `./`-prefixed when the
path lies under that directory and `../`-prefixed otherwise, with
forward-slash separators. -/
def relSpecifier (dir p : List String) : String :=
  let c := commonLen dir p
  let body := String.intercalate ("/") (p.drop c)
  if dir.length - c = 0 then "./" ++ body else dotDots (dir.length - c) ++ body

/-- Modelled from the spec: the alias-rooted specifier — alias token plus the
remaining path, preserved in alias-rooted absolute form. -/
def aliasSpecifier (ar : String × List String) (p : List String) : String :=
  ar.1 ++ "/" ++ String.intercalate ("/") (p.drop ar.2.length)

/-- Modelled from the spec: the normalized specifier a matched path receives
in the generated mapping, determined by the first pattern that matched it. -/
def dirSpecifier (d : GlobDirective) (p : List String) : String :=
  match findPat d p with
  | some pat =>
    match pat.aliasRoot with
    | some ar => aliasSpecifier ar p
    | none => relSpecifier d.declaringDir p
  | none => relSpecifier d.declaringDir p

/-- Modelled from the spec: the generated mapping's key list for a directive —
the normalized specifiers of the matching paths, duplicates removed, sorted
lexicographically by specifier. -/
def matchSetKeys (paths : List (List String)) (d : GlobDirective) : List String :=
  List.insertionSort (fun a b => specLE a b = true)
    (((paths.filter (fun p => dirMatches d p)).map (fun p => dirSpecifier d p)).dedup)

/-- Modelled from the spec: a compile-time value appearing in a generated
mapping — either a plain string (raw text, a URL, an exported string) or an
export-surface object of named fields. -/
inductive JsValue where
  | str : String → JsValue
  | obj : List (String × JsValue) → JsValue

/-- A value is a plain string. -/
def JsValue.isStr : JsValue → Bool
  | .str _ => true
  | .obj _ => false

/-- Modelled from the spec: a file of the filesystem snapshot — its path,
extension, raw text contents, the nested glob directive parsed from it (if
any), and the evaluated surface of its other exports. -/
structure FileData where
  path : List String
  ext : String
  contents : String
  nested : Option GlobDirective
  exportsBase : List (String × JsValue)

/-- Modelled from the spec: the per-file-type transformer capability, reachable
by file extension; a transformer turns a file into its export surface. -/
def Transformers := String → Option (FileData → JsValue)

/-- Path rendered with forward-slash separators. -/
def pathString (p : List String) : String := String.intercalate ("/") p

/-- First file of the snapshot that the directive matches with this specifier. -/
def findFile (fs : List FileData) (d : GlobDirective) (k : String) : Option FileData :=
  fs.find? (fun f => dirMatches d f.path && (dirSpecifier d f.path == k))

/-- Modelled from the spec: the `importBinding` named-export filter — restricts
an export surface to the single named export when present. -/
def applyBinding (b : Option String) (v : JsValue) : JsValue :=
  match b with
  | none => v
  | some name =>
    match v with
    | .obj fields =>
      match fields.lookup name with
      | some x => x
      | none => .obj []
    | w => w

/-- Modelled from the spec: the value a matched file contributes to a generated
mapping.  `raw` mode is the verbatim text contents, bypassing every
transformer; `url` mode is the file's address string; module mode is the
transformed export surface, where a file holding a nested glob directive is
recursively processed first (its surface gains a `modules` field holding the
nested directive's own resolved mapping) and a file whose extension has no
transformer falls back to its raw text.  `fuel` bounds the recursion depth
(cycle guard). -/
def evalFile (tr : Transformers) (fs : List FileData) :
    Nat → FileData → AsMode → JsValue
  | _, f, .raw => .str f.contents
  | _, f, .url => .str (pathString f.path)
  | fuel, f, .module =>
    match f.nested with
    | none =>
      match tr f.ext with
      | some t => t f
      | none => .str f.contents
    | some nd =>
      match fuel with
      | 0 => .obj f.exportsBase
      | fuel2 + 1 =>
        .obj (("modules",
          .obj ((matchSetKeys (fs.map (fun g => g.path)) nd).map (fun k =>
            (k,
              match findFile fs nd k with
              | some g =>
                if nd.opts.asMode = .module then
                  applyBinding nd.opts.importBinding (evalFile tr fs fuel2 g nd.opts.asMode)
                else evalFile tr fs fuel2 g nd.opts.asMode
              | none => .str "")))) :: f.exportsBase)

/-- Modelled from the spec: the generated mapping for a directive — one entry
per MatchSet specifier, in sorted key order, each key mapped to the value of
the file it names under the directive's load mode and binding filter. -/
def genMapping (tr : Transformers) (fs : List FileData) (fuel : Nat)
    (d : GlobDirective) : List (String × JsValue) :=
  (matchSetKeys (fs.map (fun g => g.path)) d).map (fun k =>
    (k,
      match findFile fs d k with
      | some g =>
        if d.opts.asMode = .module then
          applyBinding d.opts.importBinding (evalFile tr fs fuel g d.opts.asMode)
        else evalFile tr fs fuel g d.opts.asMode
      | none => .str ""))

/-- Removing a file from the snapshot by path. -/
def removeFile (fs : List FileData) (p : List String) : List FileData :=
  fs.filter (fun g => !(g.path = p : Bool))

/-- Modelled from the spec: loading a module holding a side-effect-only
directive evaluates the generated accessor of every matched file, in mapping
(MatchSet) order, once each; the load's evaluation trace is the mapping's key
list in order. -/
def sideEffectLoadEvents (tr : Transformers) (fs : List FileData) (fuel : Nat)
    (d : GlobDirective) : List String :=
  (genMapping tr fs fuel d).map Prod.fst

/-- A file's evaluation does not depend on the path `p`: no nested glob
directive reachable from the file — through the files of its nested mappings,
within the recursion bound — matches `p`.  Nested-free files are trivially
independent. -/
def indepOf (fs : List FileData) (p : List String) : Nat → FileData → Bool
  | 0, _ => true
  | fuel + 1, g =>
    match g.nested with
    | none => true
    | some nd =>
      !dirMatches nd p &&
        (matchSetKeys (fs.map (fun h => h.path)) nd).all (fun k =>
          match findFile fs nd k with
          | some h => indepOf fs p fuel h
          | none => true)

/-- Modelled from the spec: the two compile modes whose sibling-field ordering
diverges — a one-shot production compile and an incrementally served compile. -/
inductive CompileMode where
  | build
  | serve
deriving DecidableEq

/-- Modelled from the spec: the incremental server's session registry —
processing a directive registers it, most recently processed first; a
directive already registered keeps its slot. -/
def registerDirectives (session : List String) (ds : List String) : List String :=
  ds.foldl (fun acc d => if d ∈ acc then acc else d :: acc) session

/-- Modelled from the spec: the order of the sibling fields emitted for one
file's directives — declaration/processing order of the single top-to-bottom
pass in a one-shot build, session registration order (most recently processed
first) in an incrementally served compile. -/
def siblingOrder (mode : CompileMode) (session : List String) (ds : List String) :
    List String :=
  match mode with
  | .build => ds
  | .serve => (registerDirectives session ds).filter (fun d => d ∈ ds)

/-- Concrete directive for the C1 witness. -/
def wC1d : GlobDirective :=
  { patterns := [{ aliasRoot := none, up := 0, segs := [.star (".js")] }],
    declaringDir := ["root"],
    opts := { eager := true, asMode := .module, importBinding := none } }

/-- Concrete path list for the C1 witness. -/
def wC1paths : List (List String) :=
  [["root", "b.js"], ["root", "a.js"], ["root", "x.css"]]

/-- A permutation of `wC1paths` for the C1 witness. -/
def wC1paths2 : List (List String) :=
  [["root", "x.css"], ["root", "a.js"], ["root", "b.js"]]

/-- Transformer table with no known extensions, for witnesses. -/
def wNoTr : Transformers := fun _ => none

/-- Concrete snapshot for the C1 witness. -/
def wC1fs : List FileData :=
  [{ path := ["root", "b.js"], ext := "js", contents := "", nested := none, exportsBase := [] },
   { path := ["root", "a.js"], ext := "js", contents := "", nested := none, exportsBase := [] },
   { path := ["root", "x.css"], ext := "css", contents := "", nested := none, exportsBase := [] }]

/-- Pattern that opts into `node_modules`, for the C2 witness. -/
def wC2pat : GlobPattern :=
  { aliasRoot := none, up := 0, segs := [.lit ("node_modules"), .star (".js")] }

/-- Directive whose pattern literally targets `node_modules`, for the C2 witness. -/
def wC2d : GlobDirective :=
  { patterns := [wC2pat], declaringDir := ["root"],
    opts := { eager := false, asMode := .module, importBinding := none } }

/-- Directive with no `node_modules` opt-in, for the C2 witness. -/
def wC2dNo : GlobDirective :=
  { patterns := [{ aliasRoot := none, up := 0, segs := [.globstar, .star (".js")] }],
    declaringDir := ["root"],
    opts := { eager := false, asMode := .module, importBinding := none } }

/-- A path under a dependency directory, for the C2 witness. -/
def wC2p : List String := ["root", "node_modules", "hoge.js"]

/-- Non-alias pattern for the C3 witness. -/
def wC3pat : GlobPattern := { aliasRoot := none, up := 0, segs := [.star (".js")] }

/-- Directive for the C3 witness. -/
def wC3d : GlobDirective :=
  { patterns := [wC3pat], declaringDir := ["root"],
    opts := { eager := true, asMode := .module, importBinding := none } }

/-- A JSON transformer used by the C4 witness: a non-plain-text export surface. -/
def wC4t : FileData → JsValue := fun _ => JsValue.obj [("msg", JsValue.str ("baz"))]

/-- Transformer table knowing only `json`, for the C4 witness. -/
def wC4tr : Transformers := fun e => if e = "json" then some wC4t else none

/-- A JSON file, for the C4 witness. -/
def wC4f : FileData :=
  { path := ["root", "baz.json"], ext := "json", contents := "baz-text",
    nested := none, exportsBase := [] }

/-- Nested directive of the C6 counterexample: globs `sub/*.js`. -/
def ndC6 : GlobDirective :=
  { patterns := [{ aliasRoot := none, up := 0, segs := [.lit ("sub"), .star (".js")] }],
    declaringDir := ["root"],
    opts := { eager := true, asMode := .module, importBinding := none } }

/-- Outer directive of the C6 counterexample: globs `**/*.js`. -/
def dC6 : GlobDirective :=
  { patterns := [{ aliasRoot := none, up := 0, segs := [.globstar, .star (".js")] }],
    declaringDir := ["root"],
    opts := { eager := true, asMode := .module, importBinding := none } }

/-- A file that itself holds the nested directive `ndC6`. -/
def idxC6 : FileData :=
  { path := ["root", "idx.js"], ext := "js", contents := "", nested := some ndC6,
    exportsBase := [] }

/-- The file added during the C6 counterexample; it matches both directives. -/
def aC6 : FileData :=
  { path := ["root", "sub", "a.js"], ext := "js", contents := "", nested := none,
    exportsBase := [("msg", JsValue.str ("a"))] }

/-- Directive for the amended C6 witness: globs `*.js` under `root`. -/
def wC6d : GlobDirective :=
  { patterns := [{ aliasRoot := none, up := 0, segs := [.star (".js")] }],
    declaringDir := ["root"],
    opts := { eager := true, asMode := .module, importBinding := none } }

/-- Nested directive of the amended C6 witness's pre-existing file: it globs
`*.json` only, so it does not match the added `.js` file. -/
def wC6nd2 : GlobDirective :=
  { patterns := [{ aliasRoot := none, up := 0, segs := [.star (".json")] }],
    declaringDir := ["root"],
    opts := { eager := true, asMode := .module, importBinding := none } }

/-- Pre-existing file of the amended C6 witness; it holds the nested directive
`wC6nd2`, which does not match the added file. -/
def wC6bar : FileData :=
  { path := ["root", "bar.js"], ext := "js", contents := "bar-src",
    nested := some wC6nd2, exportsBase := [("msg", JsValue.str ("bar"))] }

/-- File added and removed during the amended C6 witness. -/
def wC6new : FileData :=
  { path := ["root", "a.js"], ext := "js", contents := "", nested := none,
    exportsBase := [] }

/-- Directive for the C7 witness. -/
def wC7d : GlobDirective :=
  { patterns := [{ aliasRoot := none, up := 0, segs := [.star (".js")] }],
    declaringDir := ["root"],
    opts := { eager := false, asMode := .module, importBinding := none } }

/-- Snapshot for the C7 witness. -/
def wC7fs : List FileData :=
  [{ path := ["root", "b.js"], ext := "js", contents := "b-src", nested := none, exportsBase := [] },
   { path := ["root", "a.js"], ext := "js", contents := "a-src", nested := none, exportsBase := [] }]

/-- Nested directive of the C8 witness: globs `*.json`. -/
def wC8nd : GlobDirective :=
  { patterns := [{ aliasRoot := none, up := 0, segs := [.star (".json")] }],
    declaringDir := ["root"],
    opts := { eager := true, asMode := .module, importBinding := none } }

/-- Outer eager directive of the C8 witness: globs `*.js`. -/
def wC8d : GlobDirective :=
  { patterns := [{ aliasRoot := none, up := 0, segs := [.star (".js")] }],
    declaringDir := ["root"],
    opts := { eager := true, asMode := .module, importBinding := none } }

/-- File of the C8 witness that holds the nested directive. -/
def wC8bar : FileData :=
  { path := ["root", "bar.js"], ext := "js", contents := "bar-src", nested := some wC8nd,
    exportsBase := [("msg", JsValue.str ("bar"))] }

/-- Plain file matched by the C8 witness's nested directive. -/
def wC8baz : FileData :=
  { path := ["root", "baz.json"], ext := "json", contents := "baz", nested := none,
    exportsBase := [] }

/-- Snapshot for the C8 witness. -/
def wC8fs : List FileData := [wC8bar, wC8baz]

end VGlob

namespace VLog

/-- Log message types of `logger.ts` (`LogType`). -/
inductive LogType where
  | error
  | warn
  | info
deriving DecidableEq

/-- Log levels of `logger.ts` (`LogLevel = LogType | 'silent'`). -/
inductive LogLevel where
  | silent
  | error
  | warn
  | info
deriving DecidableEq

/-- Numeric thresholds of `logger.ts` (`LogLevels`). -/
def LogLevels : LogLevel → Nat
  | .silent => 0
  | .error => 1
  | .warn => 2
  | .info => 3

/-- The log level carried by a message type. -/
def LogType.toLogLevel : LogType → LogLevel
  | .error => .error
  | .warn => .warn
  | .info => .info

/-- Options of a log call (`LogOptions` / `LogErrorOptions`); `error` is the
abstract identity of an attached error object. -/
structure LogOptions where
  clear : Bool
  timestamp : Bool
  error : Option Nat

/-- The module-level console-repeat state of `logger.ts` (`lastType`,
`lastMsg`, `sameCount`) together with the lines printed so far. -/
structure OutputState where
  lines : List String
  lastType : Option LogType
  lastMsg : Option String
  sameCount : Nat

/-- Per-logger configuration fixed by `createLogger`: the numeric threshold of
the chosen level, whether the screen can be cleared (TTY and not CI), the
message tag, and the clock reading used for timestamps. -/
structure LoggerConfig where
  thresh : Nat
  canClearScreen : Bool
  tag : String
  now : String

/-- The configuration `createLogger level options` fixes: `thresh` is
`LogLevels[level]`. -/
def createLoggerConfig (level : LogLevel) (canClear : Bool) (tag now : String) :
    LoggerConfig :=
  { thresh := LogLevels level, canClearScreen := canClear, tag := tag, now := now }

/-- The state owned by one logger: the `hasWarned` flag, the `warnedMessages`
dedup set, the `loggedErrors` set, and the console output state. -/
structure LoggerState where
  hasWarned : Bool
  warnedMessages : List String
  loggedErrors : List Nat
  out : OutputState

/-- The state of a logger as `createLogger` returns it. -/
def initialLoggerState : LoggerState :=
  { hasWarned := false, warnedMessages := [], loggedErrors := [],
    out := { lines := [], lastType := none, lastMsg := none, sameCount := 0 } }

/-- The formatted line of `logger.ts`'s `format()`: the message, prefixed with
the time and tag when `timestamp` is set (terminal colors are presentation
only and are not modelled). -/
def formatMsg (cfg : LoggerConfig) (opts : LogOptions) (msg : String) : String :=
  if opts.timestamp then cfg.now ++ " " ++ cfg.tag ++ " " ++ msg else msg

/-- The `output` closure of `createLogger`: prints only when the threshold
admits the type; tracks attached errors; when the screen can be cleared,
collapses consecutive repeats of the same type and message into a counted
line, resetting the repeat counter otherwise. -/
def output (cfg : LoggerConfig) (type : LogType) (msg : String)
    (opts : LogOptions) (s : LoggerState) : LoggerState :=
  if LogLevels type.toLogLevel ≤ cfg.thresh then
    let s1 :=
      match opts.error with
      | some e => { s with loggedErrors := s.loggedErrors ++ [e] }
      | none => s
    if cfg.canClearScreen then
      if s1.out.lastType = some type ∧ s1.out.lastMsg = some msg then
        { s1 with out :=
          { s1.out with
            sameCount := s1.out.sameCount + 1,
            lines := s1.out.lines ++
              [formatMsg cfg opts msg ++ " (x" ++ toString (s1.out.sameCount + 2) ++ ")"] } }
      else
        { s1 with out :=
          { lines := s1.out.lines ++ [formatMsg cfg opts msg],
            lastType := some type, lastMsg := some msg, sameCount := 0 } }
    else
      { s1 with out := { s1.out with lines := s1.out.lines ++ [formatMsg cfg opts msg] } }
  else s

/-- `logger.info`. -/
def Logger.info (cfg : LoggerConfig) (msg : String) (opts : LogOptions)
    (s : LoggerState) : LoggerState :=
  output cfg .info msg opts s

/-- `logger.warn`: sets `hasWarned`, then emits through `output`. -/
def Logger.warn (cfg : LoggerConfig) (msg : String) (opts : LogOptions)
    (s : LoggerState) : LoggerState :=
  output cfg .warn msg opts { s with hasWarned := true }

/-- `logger.warnOnce`: returns immediately when the message was warned before;
otherwise sets `hasWarned`, emits through `output`, and records the message. -/
def Logger.warnOnce (cfg : LoggerConfig) (msg : String) (opts : LogOptions)
    (s : LoggerState) : LoggerState :=
  if msg ∈ s.warnedMessages then s
  else
    let s1 := output cfg .warn msg opts { s with hasWarned := true }
    { s1 with warnedMessages := s1.warnedMessages ++ [msg] }

/-- `logger.error`: sets `hasWarned`, then emits through `output`. -/
def Logger.error (cfg : LoggerConfig) (msg : String) (opts : LogOptions)
    (s : LoggerState) : LoggerState :=
  output cfg .error msg opts { s with hasWarned := true }

/-- `logger.clearScreen`: clears the terminal when the threshold admits the
type; touches no logger state. -/
def Logger.clearScreen (_cfg : LoggerConfig) (_type : LogType)
    (s : LoggerState) : LoggerState :=
  s

/-- `logger.hasErrorLogged`. -/
def Logger.hasErrorLogged (e : Nat) (s : LoggerState) : Bool :=
  e ∈ s.loggedErrors

/-- One call against the logger interface. -/
inductive LoggerOp where
  | info (msg : String) (opts : LogOptions)
  | warn (msg : String) (opts : LogOptions)
  | warnOnce (msg : String) (opts : LogOptions)
  | error (msg : String) (opts : LogOptions)
  | clearScreen (type : LogType)

/-- Applying one logger call to the logger state. -/
def applyOp (cfg : LoggerConfig) : LoggerOp → LoggerState → LoggerState
  | .info msg opts, s => Logger.info cfg msg opts s
  | .warn msg opts, s => Logger.warn cfg msg opts s
  | .warnOnce msg opts, s => Logger.warnOnce cfg msg opts s
  | .error msg opts, s => Logger.error cfg msg opts s
  | .clearScreen type, s => Logger.clearScreen cfg type s

/-- Concrete configuration for the logger witnesses. -/
def wCfg : LoggerConfig :=
  { thresh := 2, canClearScreen := true, tag := "[vite]", now := "12:00:00" }

/-- A silent-level configuration, as `createLogger` builds it. -/
def wCfgSilent : LoggerConfig := createLoggerConfig .silent true ("[vite]") ("t")

/-- Plain options for the logger witnesses. -/
def wOpts : LogOptions := { clear := false, timestamp := false, error := none }

/-- A state that has already warned the message `dup`. -/
def wLS : LoggerState :=
  { hasWarned := true, warnedMessages := ["dup"], loggedErrors := [],
    out := { lines := ["dup"], lastType := some .warn, lastMsg := some ("dup"), sameCount := 0 } }

/-- A state with `hasWarned` already set. -/
def wLS2 : LoggerState :=
  { hasWarned := true, warnedMessages := [], loggedErrors := [],
    out := { lines := [], lastType := none, lastMsg := none, sameCount := 0 } }

end VLog

namespace VGlob

theorem charListLE_total (as bs : List Char) :
    charListLE as bs = true ∨ charListLE bs as = true := by
  induction as generalizing bs with
  | nil => left; rfl
  | cons a as ih =>
    cases bs with
    | nil => right; rfl
    | cons b bs =>
      rcases Nat.lt_trichotomy a.toNat b.toNat with h | h | h
      · left; simp [charListLE, h]
      · rcases ih bs with h2 | h2
        · left; simp [charListLE, h, h2]
        · right; simp [charListLE, h.symm, h2]
      · right; simp [charListLE, h]

theorem charListLE_trans (as bs cs : List Char)
    (h1 : charListLE as bs = true) (h2 : charListLE bs cs = true) :
    charListLE as cs = true := by
  induction as generalizing bs cs with
  | nil => rfl
  | cons a as ih =>
    cases bs with
    | nil => simp [charListLE] at h1
    | cons b bs =>
      cases cs with
      | nil => simp [charListLE] at h2
      | cons c cs =>
        simp only [charListLE] at h1 h2 ⊢
        by_cases hab : a.toNat < b.toNat
        · by_cases hbc : b.toNat < c.toNat
          · simp [Nat.lt_trans hab hbc]
          · by_cases hcb : c.toNat < b.toNat
            · simp [hbc, hcb] at h2
            · have hbc2 : b.toNat = c.toNat := by omega
              simp [hbc2 ▸ hab]
        · by_cases hba : b.toNat < a.toNat
          · simp [hab, hba] at h1
          · have hab2 : a.toNat = b.toNat := by omega
            by_cases hbc : b.toNat < c.toNat
            · simp [hab2 ▸ hbc]
            · by_cases hcb : c.toNat < b.toNat
              · simp [hbc, hcb] at h2
              · have hbc2 : b.toNat = c.toNat := by omega
                simp [hab, hba, hab2, hbc2] at h1 h2 ⊢
                exact ih bs cs h1 h2

theorem charListLE_antisymm (as bs : List Char)
    (h1 : charListLE as bs = true) (h2 : charListLE bs as = true) : as = bs := by
  induction as generalizing bs with
  | nil =>
    cases bs with
    | nil => rfl
    | cons b bs => simp [charListLE] at h2
  | cons a as ih =>
    cases bs with
    | nil => simp [charListLE] at h1
    | cons b bs =>
      simp only [charListLE] at h1 h2
      by_cases hab : a.toNat < b.toNat
      · simp [hab, Nat.lt_asymm hab] at h2
      · by_cases hba : b.toNat < a.toNat
        · simp [hab, hba] at h1
        · have hv : a.toNat = b.toNat := by omega
          have hc : a = b := Char.eq_of_val_eq (UInt32.ext hv)
          simp [hab, hba] at h1 h2
          rw [hc, ih bs h1 h2]

theorem specLE_total (a b : String) : specLE a b = true ∨ specLE b a = true :=
  charListLE_total a.data b.data

theorem specLE_trans (a b c : String)
    (h1 : specLE a b = true) (h2 : specLE b c = true) : specLE a c = true :=
  charListLE_trans a.data b.data c.data h1 h2

theorem specLE_antisymm (a b : String)
    (h1 : specLE a b = true) (h2 : specLE b a = true) : a = b := by
  cases a with
  | mk da =>
    cases b with
    | mk db =>
      have h := charListLE_antisymm da db h1 h2
      simp [h]

instance : IsTotal String (fun a b => specLE a b = true) := ⟨specLE_total⟩

instance : IsTrans String (fun a b => specLE a b = true) := ⟨specLE_trans⟩

instance : IsAntisymm String (fun a b => specLE a b = true) := ⟨specLE_antisymm⟩

theorem matchSetKeys_sorted (paths : List (List String)) (d : GlobDirective) :
    List.Sorted (fun a b => specLE a b = true) (matchSetKeys paths d) :=
  List.sorted_insertionSort _ _

theorem matchSetKeys_nodup (paths : List (List String)) (d : GlobDirective) :
    (matchSetKeys paths d).Nodup :=
  (List.perm_insertionSort _ _).nodup_iff.mpr (List.nodup_dedup _)

theorem mem_matchSetKeys (paths : List (List String)) (d : GlobDirective) (k : String) :
    k ∈ matchSetKeys paths d ↔
      ∃ p ∈ paths, dirMatches d p = true ∧ dirSpecifier d p = k := by
  unfold matchSetKeys
  rw [(List.perm_insertionSort _ _).mem_iff, List.mem_dedup, List.mem_map]
  constructor
  · rintro ⟨p, hp, hs⟩
    rw [List.mem_filter] at hp
    exact ⟨p, hp.1, hp.2, hs⟩
  · rintro ⟨p, hp, hm, hs⟩
    exact ⟨p, List.mem_filter.mpr ⟨hp, hm⟩, hs⟩

theorem matchSetKeys_perm_invariant (paths paths2 : List (List String))
    (d : GlobDirective) (h : List.Perm paths paths2) :
    matchSetKeys paths d = matchSetKeys paths2 d := by
  apply List.eq_of_perm_of_sorted _ (matchSetKeys_sorted paths d) (matchSetKeys_sorted paths2 d)
  exact ((List.perm_insertionSort _ _).trans (((h.filter _).map _).dedup)).trans
    (List.perm_insertionSort _ _).symm

/-- Unfolding lemma: in module mode with fuel available, a file holding a
nested directive evaluates to its export surface extended with a `modules`
field holding the nested directive's generated mapping. -/
theorem evalFile_nested (tr : Transformers) (fs : List FileData) (fuel : Nat)
    (f : FileData) (nd : GlobDirective) (h : f.nested = some nd) :
    evalFile tr fs (fuel + 1) f .module =
      .obj (("modules", .obj (genMapping tr fs fuel nd)) :: f.exportsBase) := by
  simp [evalFile, h, genMapping]

/-- Evaluation of a file with no nested directive depends on neither the fuel
bound nor the snapshot. -/
theorem evalFile_nested_none (tr : Transformers) (fs fs2 : List FileData)
    (f : FileData) (h : f.nested = none) (fuel fuel2 : Nat) (m : AsMode) :
    evalFile tr fs fuel f m = evalFile tr fs2 fuel2 f m := by
  cases m with
  | raw => simp [evalFile]
  | url => simp [evalFile]
  | module => simp [evalFile, h]

theorem genMapping_keys (tr : Transformers) (fs : List FileData) (fuel : Nat)
    (d : GlobDirective) :
    (genMapping tr fs fuel d).map Prod.fst = matchSetKeys (fs.map (fun g => g.path)) d := by
  unfold genMapping
  rw [List.map_map]
  exact List.map_id' _

/-- Looking up a key of a key-indexed generated list returns the value
computed for that key. -/
theorem lookup_map_keys (keys : List String) (k : String)
    (val : String → JsValue) (h : k ∈ keys) :
    (keys.map (fun k2 => (k2, val k2))).lookup k = some (val k) := by
  induction keys with
  | nil => cases h
  | cons a keys ih =>
    by_cases ha : k = a
    · subst ha
      simp [List.lookup]
    · have hb : (k == a) = false := beq_eq_false_iff_ne.mpr ha
      have h2 : k ∈ keys := by
        rcases List.mem_cons.mp h with h1 | h1
        · exact absurd h1 ha
        · exact h1
      simp [List.lookup, hb, ih h2]

/-- A pair belongs to a key-indexed generated list precisely when its key is
one of the keys and its value is the one computed for that key. -/
theorem pair_mem_map_keys (keys : List String) (val : String → JsValue)
    (k : String) (v : JsValue) :
    (k, v) ∈ keys.map (fun k2 => (k2, val k2)) ↔ k ∈ keys ∧ v = val k := by
  rw [List.mem_map]
  constructor
  · rintro ⟨k2, hk2, heq⟩
    have h1 : k2 = k := congrArg Prod.fst heq
    have h2 : val k2 = v := congrArg Prod.snd heq
    subst h1
    exact ⟨hk2, h2.symm⟩
  · rintro ⟨hk, hv⟩
    exact ⟨k, hk, by rw [hv]⟩

/-- The value stored in a generated mapping under a key of its key set. -/
theorem genMapping_lookup (tr : Transformers) (fs : List FileData) (fuel : Nat)
    (d : GlobDirective) (k : String)
    (hk : k ∈ matchSetKeys (fs.map (fun g => g.path)) d) :
    (genMapping tr fs fuel d).lookup k =
      some (match findFile fs d k with
        | some g =>
          if d.opts.asMode = .module then
            applyBinding d.opts.importBinding (evalFile tr fs fuel g d.opts.asMode)
          else evalFile tr fs fuel g d.opts.asMode
        | none => .str "") := by
  unfold genMapping
  exact lookup_map_keys _ _ _ hk

/-- Membership in a generated mapping, characterized. -/
theorem genMapping_mem (tr : Transformers) (fs : List FileData) (fuel : Nat)
    (d : GlobDirective) (k : String) (v : JsValue) :
    (k, v) ∈ genMapping tr fs fuel d ↔
      k ∈ matchSetKeys (fs.map (fun g => g.path)) d ∧
        v = (match findFile fs d k with
          | some g =>
            if d.opts.asMode = .module then
              applyBinding d.opts.importBinding (evalFile tr fs fuel g d.opts.asMode)
            else evalFile tr fs fuel g d.opts.asMode
          | none => .str "") := by
  unfold genMapping
  exact pair_mem_map_keys _ _ _ _

theorem commonLen_append (dir rest : List String) :
    commonLen dir (dir ++ rest) = dir.length := by
  induction dir with
  | nil => cases rest <;> rfl
  | cons a as ih => simp [commonLen, ih]

end VGlob

namespace VGlob

/-- C1: for every directive, the generated mapping's key set equals exactly
the normalized specifiers of the paths matching the directive's patterns
after exclusion rules; the keys are lexicographically sorted by specifier,
contain no duplicates, and are independent of the order in which the
filesystem enumerates files; the generated mapping's keys are exactly this
key list. -/
theorem c1_mapping_key_set (d : GlobDirective) (paths : List (List String)) :
    List.Sorted (fun a b => specLE a b = true) (matchSetKeys paths d) ∧
    (matchSetKeys paths d).Nodup ∧
    (∀ k, k ∈ matchSetKeys paths d ↔
      ∃ p ∈ paths, dirMatches d p = true ∧ dirSpecifier d p = k) ∧
    (∀ paths2, List.Perm paths paths2 → matchSetKeys paths d = matchSetKeys paths2 d) ∧
    (∀ (tr : Transformers) (fs : List FileData) (fuel : Nat),
      fs.map (fun g => g.path) = paths →
      (genMapping tr fs fuel d).map Prod.fst = matchSetKeys paths d) := by
  refine ⟨matchSetKeys_sorted paths d, matchSetKeys_nodup paths d,
    fun k => mem_matchSetKeys paths d k,
    fun paths2 h => matchSetKeys_perm_invariant paths paths2 d h,
    fun tr fs fuel h => ?_⟩
  rw [genMapping_keys, h]

/-- C1 witness: key-set characterization, enumeration-order independence and
mapping-key agreement at a concrete directive and snapshot. -/
theorem c1_mapping_key_set_witness :
    ("./a.js" ∈ matchSetKeys wC1paths wC1d ↔
      ∃ p ∈ wC1paths, dirMatches wC1d p = true ∧ dirSpecifier wC1d p = "./a.js") ∧
    matchSetKeys wC1paths wC1d = matchSetKeys wC1paths2 wC1d ∧
    (genMapping wNoTr wC1fs 1 wC1d).map Prod.fst = matchSetKeys wC1paths wC1d :=
  ⟨(c1_mapping_key_set wC1d wC1paths).2.2.1 ("./a.js"),
   (c1_mapping_key_set wC1d wC1paths).2.2.2.1 wC1paths2 (by decide),
   (c1_mapping_key_set wC1d wC1paths).2.2.2.2 wNoTr wC1fs 1 (by decide)⟩

/-- C2: a path containing a dependency-directory (`node_modules`) segment is
dropped from the MatchSet unless some pattern of the directive literally
contains that segment; when a pattern does contain it literally and the glob
matches, the path is included. -/
theorem c2_node_modules_exclusion (d : GlobDirective) (p : List String) :
    (pathHasNodeModules p = true →
      (∀ pat ∈ d.patterns, patHasNodeModules pat = false) →
      dirMatches d p = false ∧
        ∀ paths : List (List String), p ∉ paths.filter (fun q => dirMatches d q)) ∧
    (∀ pat ∈ d.patterns, patHasNodeModules pat = true → rawMatch d pat p = true →
      dirMatches d p = true ∧
        ∀ paths : List (List String), p ∈ paths →
          p ∈ paths.filter (fun q => dirMatches d q)) := by
  constructor
  · intro hp hall
    have hm : dirMatches d p = false := by
      unfold dirMatches findPat
      cases hfind : d.patterns.find? (fun pat => keepMatch d pat p) with
      | none => rfl
      | some pat =>
        exfalso
        have hkeep := List.find?_some hfind
        have hmem := List.mem_of_find?_eq_some hfind
        unfold keepMatch at hkeep
        rw [hp, hall pat hmem] at hkeep
        simp at hkeep
    refine ⟨hm, fun paths hmem => ?_⟩
    rw [List.mem_filter] at hmem
    rw [hm] at hmem
    exact Bool.false_ne_true hmem.2
  · intro pat hmem hnm hraw
    have hkeep : keepMatch d pat p = true := by
      unfold keepMatch
      rw [hraw, hnm]
      simp
    have hm : dirMatches d p = true := by
      unfold dirMatches findPat
      apply List.find?_isSome.mpr
      exact ⟨pat, hmem, hkeep⟩
    exact ⟨hm, fun paths hp => List.mem_filter.mpr ⟨hp, hm⟩⟩

/-- C2 witness: a `node_modules` path is excluded by a directive without the
literal segment and included by one that targets it literally. -/
theorem c2_node_modules_exclusion_witness :
    dirMatches wC2dNo wC2p = false ∧
    wC2p ∉ [wC2p].filter (fun q => dirMatches wC2dNo q) ∧
    dirMatches wC2d wC2p = true ∧
    wC2p ∈ [wC2p].filter (fun q => dirMatches wC2d q) :=
  ⟨((c2_node_modules_exclusion wC2dNo wC2p).1 (by decide) (by decide)).1,
   ((c2_node_modules_exclusion wC2dNo wC2p).1 (by decide) (by decide)).2 [wC2p],
   ((c2_node_modules_exclusion wC2d wC2p).2 wC2pat (by decide) (by decide) (by decide)).1,
   ((c2_node_modules_exclusion wC2d wC2p).2 wC2pat (by decide) (by decide) (by decide)).2
     [wC2p] (by decide)⟩

/-- Unfolding `dotDots` one step. -/
theorem dotDots_succ (n : Nat) : dotDots (n + 1) = "../" ++ dotDots n := rfl

/-- Shape of a relative specifier when the declaring directory is exhausted by
the common segment run. -/
theorem relSpecifier_pos (dir p : List String)
    (h : dir.length - commonLen dir p = 0) :
    relSpecifier dir p = "./" ++ String.intercalate ("/") (p.drop (commonLen dir p)) := by
  simp [relSpecifier, h]

/-- Shape of a relative specifier when parent-directory steps remain. -/
theorem relSpecifier_neg (dir p : List String) (n : Nat)
    (h : dir.length - commonLen dir p = n + 1) :
    relSpecifier dir p =
      "../" ++ (dotDots n ++ String.intercalate ("/") (p.drop (commonLen dir p))) := by
  unfold relSpecifier
  simp only [h]
  rw [if_neg (Nat.succ_ne_zero n), dotDots_succ, String.append_assoc]

/-- A path under the declaring directory keeps its remaining segments verbatim
after the `./` prefix. -/
theorem relSpecifier_append (dir rest : List String) :
    relSpecifier dir (dir ++ rest) = "./" ++ String.intercalate ("/") rest := by
  have h0 : dir.length - commonLen dir (dir ++ rest) = 0 := by
    rw [commonLen_append]
    omega
  rw [relSpecifier_pos dir (dir ++ rest) h0, commonLen_append, List.drop_left]

/-- C3: a non-alias matched path's specifier is the path relative to the
declaring directory; every relative specifier starts with `./` or `../`
(never a bare segment); a path under the declaring directory keeps its
remaining segments verbatim, joined by forward slashes after the `./`
prefix. -/
theorem c3_relative_specifier (d : GlobDirective) (p : List String)
    (pat : GlobPattern) :
    (findPat d p = some pat → pat.aliasRoot = none →
      dirSpecifier d p = relSpecifier d.declaringDir p) ∧
    (∀ dir q : List String, ∃ body : String,
      relSpecifier dir q = "./" ++ body ∨ relSpecifier dir q = "../" ++ body) ∧
    (∀ dir rest : List String,
      relSpecifier dir (dir ++ rest) = "./" ++ String.intercalate ("/") rest) := by
  refine ⟨fun hfind halias => ?_, fun dir q => ?_, fun dir rest => relSpecifier_append dir rest⟩
  · simp [dirSpecifier, hfind, halias]
  · by_cases hn : dir.length - commonLen dir q = 0
    · exact ⟨String.intercalate ("/") (q.drop (commonLen dir q)),
        Or.inl (relSpecifier_pos dir q hn)⟩
    · obtain ⟨n, hsn⟩ : ∃ n, dir.length - commonLen dir q = n + 1 :=
        ⟨dir.length - commonLen dir q - 1, by omega⟩
      exact ⟨dotDots n ++ String.intercalate ("/") (q.drop (commonLen dir q)),
        Or.inr (relSpecifier_neg dir q n hsn)⟩

/-- C3 witness: specifier shape at concrete paths. -/
theorem c3_relative_specifier_witness :
    dirSpecifier wC3d ["root", "a.js"] = relSpecifier ["root"] ["root", "a.js"] ∧
    (∃ body : String,
      relSpecifier ["root"] ["other", "b.js"] = "./" ++ body ∨
        relSpecifier ["root"] ["other", "b.js"] = "../" ++ body) ∧
    relSpecifier ["root"] (["root"] ++ ["nested", "bar.js"]) =
      "./" ++ String.intercalate ("/") ["nested", "bar.js"] :=
  ⟨(c3_relative_specifier wC3d ["root", "a.js"] wC3pat).1 (by decide) rfl,
   (c3_relative_specifier wC3d ["root", "a.js"] wC3pat).2.1 ["root"] ["other", "b.js"],
   (c3_relative_specifier wC3d ["root", "a.js"] wC3pat).2.2 ["root"] ["nested", "bar.js"]⟩

/-- C4: `as: raw` yields the file's bytes as a plain string, bypassing every
transformer; for a file whose transformed surface is not a plain string
(non-plain-text type), the raw value never equals the default transformed
value. -/
theorem c4_raw_bypass (tr : Transformers) (fs : List FileData) (fuel : Nat)
    (f : FileData) :
    evalFile tr fs fuel f .raw = .str f.contents ∧
    (∀ t, tr f.ext = some t → f.nested = none → (t f).isStr = false →
      evalFile tr fs fuel f .raw ≠ evalFile tr fs fuel f .module) := by
  refine ⟨by simp [evalFile], fun t ht hn hstr heq => ?_⟩
  have hmod : evalFile tr fs fuel f .module = t f := by
    simp [evalFile, hn, ht]
  have hraw : evalFile tr fs fuel f .raw = .str f.contents := by
    simp [evalFile]
  rw [hraw, hmod] at heq
  rw [← heq] at hstr
  simp [JsValue.isStr] at hstr

/-- C4 witness: raw versus transformed value on a concrete JSON file. -/
theorem c4_raw_bypass_witness :
    evalFile wC4tr [] 0 wC4f .raw = .str ("baz-text") ∧
    evalFile wC4tr [] 0 wC4f .raw ≠ evalFile wC4tr [] 0 wC4f .module :=
  ⟨(c4_raw_bypass wC4tr [] 0 wC4f).1,
   (c4_raw_bypass wC4tr [] 0 wC4f).2 wC4t rfl rfl rfl⟩

end VGlob

namespace VGlob

theorem mem_registerDirectives_of_mem_session (ds : List String)
    (session : List String) (x : String) (h : x ∈ session) :
    x ∈ registerDirectives session ds := by
  induction ds generalizing session with
  | nil => exact h
  | cons d ds ih =>
    unfold registerDirectives
    rw [List.foldl_cons]
    by_cases hd : d ∈ session
    · simpa [hd] using ih session h
    · simpa [hd] using ih (d :: session) (List.mem_cons_of_mem d h)

theorem mem_registerDirectives_of_mem (ds : List String) (session : List String)
    (x : String) (h : x ∈ ds) : x ∈ registerDirectives session ds := by
  induction ds generalizing session with
  | nil => cases h
  | cons d ds ih =>
    unfold registerDirectives
    rw [List.foldl_cons]
    rcases List.mem_cons.mp h with h1 | h1
    · subst h1
      by_cases hd : x ∈ session
      · simpa [hd] using mem_registerDirectives_of_mem_session ds session x hd
      · simpa [hd] using
          mem_registerDirectives_of_mem_session ds (x :: session) x (List.mem_cons_self x session)
    · by_cases hd : d ∈ session
      · simpa [hd] using ih session h1
      · simpa [hd] using ih (d :: session) h1

theorem registerDirectives_stable (ds : List String) (session : List String)
    (h : ∀ d ∈ ds, d ∈ session) : registerDirectives session ds = session := by
  induction ds with
  | nil => rfl
  | cons d ds ih =>
    unfold registerDirectives
    rw [List.foldl_cons]
    have hd : d ∈ session := h d (List.mem_cons_self d ds)
    simp only [hd, if_pos]
    exact ih (fun x hx => h x (List.mem_cons_of_mem d hx))

/-- C5: sibling fields of one entry are ordered by declaration/processing
order in a one-shot build compile and by session registration order (most
recently processed first) in an incrementally served compile; each mode is
internally deterministic — a serve-mode recompile of the same unmodified
input leaves the session registry and the emitted order unchanged. -/
theorem c5_sibling_field_order (ds session : List String) (d1 d2 : String) :
    siblingOrder .build session ds = ds ∧
    (d1 ≠ d2 → siblingOrder .serve [] [d1, d2] = [d2, d1]) ∧
    siblingOrder .serve (registerDirectives session ds) ds =
      siblingOrder .serve session ds ∧
    registerDirectives (registerDirectives session ds) ds =
      registerDirectives session ds := by
  have hstab : registerDirectives (registerDirectives session ds) ds =
      registerDirectives session ds :=
    registerDirectives_stable ds (registerDirectives session ds)
      (fun d hd => mem_registerDirectives_of_mem ds session d hd)
  refine ⟨rfl, fun hne => ?_, ?_, hstab⟩
  · simp [siblingOrder, registerDirectives, hne, Ne.symm hne, List.filter]
  · unfold siblingOrder
    rw [hstab]

/-- C5 witness: the two sibling fields of the test's `index.js` entry — the
build order is declaration order, the serve order is reversed, and a repeated
serve compile reproduces its order. -/
theorem c5_sibling_field_order_witness :
    siblingOrder .build [] ["modules", "globWithAlias"] = ["modules", "globWithAlias"] ∧
    siblingOrder .serve [] ["modules", "globWithAlias"] = ["globWithAlias", "modules"] ∧
    siblingOrder .serve (registerDirectives [] ["modules", "globWithAlias"])
        ["modules", "globWithAlias"] =
      siblingOrder .serve [] ["modules", "globWithAlias"] :=
  ⟨(c5_sibling_field_order ["modules", "globWithAlias"] [] "modules" "globWithAlias").1,
   (c5_sibling_field_order ["modules", "globWithAlias"] [] "modules" "globWithAlias").2.1
     (by decide),
   (c5_sibling_field_order ["modules", "globWithAlias"] [] "modules" "globWithAlias").2.2.1⟩

/-- C6 counterexample: the claim's "all other entries unchanged" clause fails.
Adding `root/sub/a.js` (a new path matched by the live directive `dC6`)
changes the pre-existing entry `./idx.js`, because `idx.js` holds a nested
directive that also matches the added file — exactly the situation of the
repository's HMR test, where adding `dir/a.js` changes the `/dir/index.js`
entry. -/
theorem c6_counterexample :
    dirMatches dC6 aC6.path = true ∧
    idxC6.path ≠ aC6.path ∧
    genMapping wNoTr [idxC6] 1 dC6 =
      [("./idx.js", JsValue.obj [("modules", JsValue.obj [])])] ∧
    genMapping wNoTr [idxC6, aC6] 1 dC6 =
      [("./idx.js",
        JsValue.obj [("modules", JsValue.obj [("./sub/a.js", JsValue.str (""))])]),
       ("./sub/a.js", JsValue.str (""))] ∧
    JsValue.obj [("modules", JsValue.obj [])] ≠
      JsValue.obj [("modules", JsValue.obj [("./sub/a.js", JsValue.str (""))])] := by
  refine ⟨by decide, by decide, rfl, rfl, ?_⟩
  intro h
  simp at h

/-- Appending a file to the snapshot preserves a successful specifier lookup. -/
theorem findFile_snoc_some (fs : List FileData) (f : FileData)
    (d : GlobDirective) (k : String) (g : FileData)
    (h : findFile fs d k = some g) : findFile (fs ++ [f]) d k = some g := by
  unfold findFile at h ⊢
  rw [List.find?_append, h]
  rfl

/-- Appending a file the directive does not match preserves a failed lookup. -/
theorem findFile_snoc_none (fs : List FileData) (f : FileData)
    (d : GlobDirective) (k : String) (h : findFile fs d k = none)
    (hm : dirMatches d f.path = false) : findFile (fs ++ [f]) d k = none := by
  unfold findFile at h ⊢
  rw [List.find?_append, h]
  simp [List.find?, hm]

/-- Appending a file the directive does not match leaves the key set alone. -/
theorem matchSetKeys_snoc_no_match (fs : List FileData) (f : FileData)
    (nd : GlobDirective) (hm : dirMatches nd f.path = false) :
    matchSetKeys ((fs ++ [f]).map (fun g => g.path)) nd =
      matchSetKeys (fs.map (fun g => g.path)) nd := by
  unfold matchSetKeys
  rw [List.map_append, List.filter_append]
  simp [List.filter, hm]

/-- A nested-free file is independent of every path. -/
theorem indepOf_of_nested_none (fs : List FileData) (p : List String)
    (fuel : Nat) (g : FileData) (h : g.nested = none) :
    indepOf fs p fuel g = true := by
  cases fuel with
  | zero => rfl
  | succ n => simp [indepOf, h]

/-- Evaluating a file that is independent of the added file's path gives the
same value over the extended snapshot as over the original one. -/
theorem evalFile_of_indepOf (tr : Transformers) (fs : List FileData)
    (f : FileData) (fuel : Nat) :
    ∀ (g : FileData) (m : AsMode), indepOf fs f.path fuel g = true →
      evalFile tr (fs ++ [f]) fuel g m = evalFile tr fs fuel g m := by
  induction fuel with
  | zero =>
    intro g m _
    cases m with
    | raw => simp [evalFile]
    | url => simp [evalFile]
    | module =>
      cases hn : g.nested with
      | none => simp [evalFile, hn]
      | some nd => simp [evalFile, hn]
  | succ n ih =>
    intro g m hi
    cases m with
    | raw => simp [evalFile]
    | url => simp [evalFile]
    | module =>
      cases hn : g.nested with
      | none => simp [evalFile, hn]
      | some nd =>
        simp only [indepOf, hn] at hi
        obtain ⟨hneg, hallb⟩ := (Bool.and_eq_true _ _).mp hi
        have hm2 : dirMatches nd f.path = false := by
          cases hdm : dirMatches nd f.path
          · rfl
          · rw [hdm] at hneg
            cases hneg
        have hall := List.all_eq_true.mp hallb
        rw [evalFile_nested tr (fs ++ [f]) n g nd hn, evalFile_nested tr fs n g nd hn]
        have hgm : genMapping tr (fs ++ [f]) n nd = genMapping tr fs n nd := by
          unfold genMapping
          rw [matchSetKeys_snoc_no_match fs f nd hm2]
          apply List.map_congr_left
          intro k hk
          cases hff : findFile fs nd k with
          | none => rw [findFile_snoc_none fs f nd k hff hm2]
          | some g2 =>
            rw [findFile_snoc_some fs f nd k g2 hff]
            have hig2 : indepOf fs f.path n g2 = true := by
              have h3 := hall k hk
              rw [hff] at h3
              exact h3
            simp [ih g2 nd.opts.asMode hig2]
        rw [hgm]

/-- C6 (amended): adding a file at a fresh path matched by a live directive
and then removing it is a round trip — the post-remove mapping equals the
pre-add mapping; after the add, the new key is present, and every pre-add
entry whose backing file does not depend on the added file (no nested glob
directive reachable from it matches the added path: `indepOf`) is
unchanged. -/
theorem c6_add_remove_roundtrip (tr : Transformers) (fs : List FileData)
    (fuel : Nat) (d : GlobDirective) (f : FileData)
    (hnew : ∀ g ∈ fs, g.path ≠ f.path)
    (hm : dirMatches d f.path = true) :
    dirSpecifier d f.path ∈ (genMapping tr (fs ++ [f]) fuel d).map Prod.fst ∧
    (∀ k v, (k, v) ∈ genMapping tr fs fuel d → k ≠ dirSpecifier d f.path →
      (∀ g, findFile fs d k = some g → indepOf fs f.path fuel g = true) →
      (k, v) ∈ genMapping tr (fs ++ [f]) fuel d) ∧
    genMapping tr (removeFile (fs ++ [f]) f.path) fuel d = genMapping tr fs fuel d := by
  refine ⟨?_, ?_, ?_⟩
  · rw [genMapping_keys]
    apply (mem_matchSetKeys _ d _).mpr
    refine ⟨f.path, ?_, hm, rfl⟩
    rw [List.map_append]
    exact List.mem_append_right _ (by simp)
  · intro k v hkv hkne hflat
    obtain ⟨hk, hv⟩ := (genMapping_mem tr fs fuel d k v).mp hkv
    obtain ⟨p, hp, hpm, hps⟩ := (mem_matchSetKeys _ d k).mp hk
    obtain ⟨g0, hg0, hg0p⟩ := List.mem_map.mp hp
    have hsome : (findFile fs d k).isSome := by
      unfold findFile
      apply List.find?_isSome.mpr
      refine ⟨g0, hg0, ?_⟩
      rw [hg0p, hpm, hps]
      simp
    obtain ⟨g, hg⟩ := Option.isSome_iff_exists.mp hsome
    have hgi : indepOf fs f.path fuel g = true := hflat g hg
    have hnew2 : findFile (fs ++ [f]) d k = some g := findFile_snoc_some fs f d k g hg
    refine (genMapping_mem tr (fs ++ [f]) fuel d k v).mpr ⟨?_, ?_⟩
    · apply (mem_matchSetKeys _ d k).mpr
      refine ⟨p, ?_, hpm, hps⟩
      rw [List.map_append]
      exact List.mem_append_left _ hp
    · rw [hnew2]
      rw [hg] at hv
      simpa [evalFile_of_indepOf tr fs f fuel g d.opts.asMode hgi] using hv
  · have hrm : removeFile (fs ++ [f]) f.path = fs := by
      unfold removeFile
      rw [List.filter_append]
      have h1 : fs.filter (fun g => !(g.path = f.path : Bool)) = fs :=
        List.filter_eq_self.mpr (fun g hg => by simp [hnew g hg])
      have h2 : [f].filter (fun g => !(g.path = f.path : Bool)) = [] := by simp
      rw [h1, h2, List.append_nil]
    rw [hrm]

/-- C6 (amended) witness: the round trip at a concrete directive; the
preserved entry is backed by a file that holds a nested directive which does
not match the added file — depending on nothing added, it is unchanged. -/
theorem c6_add_remove_roundtrip_witness :
    dirSpecifier wC6d wC6new.path ∈
      (genMapping wNoTr ([wC6bar] ++ [wC6new]) 1 wC6d).map Prod.fst ∧
    ("./bar.js", JsValue.obj [("modules", JsValue.obj []), ("msg", JsValue.str ("bar"))]) ∈
      genMapping wNoTr ([wC6bar] ++ [wC6new]) 1 wC6d ∧
    genMapping wNoTr (removeFile ([wC6bar] ++ [wC6new]) wC6new.path) 1 wC6d =
      genMapping wNoTr [wC6bar] 1 wC6d := by
  have hpre : ("./bar.js",
      JsValue.obj [("modules", JsValue.obj []), ("msg", JsValue.str ("bar"))]) ∈
      genMapping wNoTr [wC6bar] 1 wC6d := by
    rw [show genMapping wNoTr [wC6bar] 1 wC6d =
      [("./bar.js", JsValue.obj [("modules", JsValue.obj []),
        ("msg", JsValue.str ("bar"))])] from rfl]
    simp
  have hflat : ∀ g, findFile [wC6bar] wC6d ("./bar.js") = some g →
      indepOf [wC6bar] wC6new.path 1 g = true := by
    intro g hg
    rw [show findFile [wC6bar] wC6d ("./bar.js") = some wC6bar from rfl] at hg
    injection hg with h
    rw [← h]
    rfl
  refine ⟨(c6_add_remove_roundtrip wNoTr [wC6bar] 1 wC6d wC6new (by decide) (by decide)).1,
    (c6_add_remove_roundtrip wNoTr [wC6bar] 1 wC6d wC6new (by decide) (by decide)).2.1
      ("./bar.js") (JsValue.obj [("modules", JsValue.obj []), ("msg", JsValue.str ("bar"))])
      hpre (by decide) hflat,
    (c6_add_remove_roundtrip wNoTr [wC6bar] 1 wC6d wC6new (by decide) (by decide)).2.2⟩

/-- C7: a side-effect-only directive evaluates every matched file at the
declaring module's load, strictly in MatchSet (specifier-sorted) order,
exactly once per load, independent of references elsewhere: the load's
evaluation trace is exactly the sorted key list, each key occurring once. -/
theorem c7_side_effect_load (tr : Transformers) (fs : List FileData) (fuel : Nat)
    (d : GlobDirective) :
    sideEffectLoadEvents tr fs fuel d = matchSetKeys (fs.map (fun g => g.path)) d ∧
    List.Sorted (fun a b => specLE a b = true) (sideEffectLoadEvents tr fs fuel d) ∧
    (∀ k, k ∈ sideEffectLoadEvents tr fs fuel d ↔
      ∃ f ∈ fs, dirMatches d f.path = true ∧ dirSpecifier d f.path = k) ∧
    (∀ k ∈ sideEffectLoadEvents tr fs fuel d,
      (sideEffectLoadEvents tr fs fuel d).count k = 1) := by
  have he : sideEffectLoadEvents tr fs fuel d = matchSetKeys (fs.map (fun g => g.path)) d :=
    genMapping_keys tr fs fuel d
  refine ⟨he, he ▸ matchSetKeys_sorted _ d, fun k => ?_, fun k hk => ?_⟩
  · rw [he, mem_matchSetKeys]
    constructor
    · rintro ⟨p, hp, hm2, hs⟩
      obtain ⟨g, hg, hgp⟩ := List.mem_map.mp hp
      exact ⟨g, hg, by rw [hgp]; exact hm2, by rw [hgp]; exact hs⟩
    · rintro ⟨g, hg, hm2, hs⟩
      exact ⟨g.path, List.mem_map_of_mem _ hg, hm2, hs⟩
  · rw [he] at hk ⊢
    exact List.count_eq_one_of_mem (matchSetKeys_nodup _ d) hk

/-- C7 witness: trace of a concrete side-effect-only directive. -/
theorem c7_side_effect_load_witness :
    sideEffectLoadEvents wNoTr wC7fs 0 wC7d =
      matchSetKeys (wC7fs.map (fun g => g.path)) wC7d ∧
    ("./a.js" ∈ sideEffectLoadEvents wNoTr wC7fs 0 wC7d ↔
      ∃ f ∈ wC7fs, dirMatches wC7d f.path = true ∧ dirSpecifier wC7d f.path = "./a.js") ∧
    (sideEffectLoadEvents wNoTr wC7fs 0 wC7d).count ("./a.js") = 1 :=
  ⟨(c7_side_effect_load wNoTr wC7fs 0 wC7d).1,
   (c7_side_effect_load wNoTr wC7fs 0 wC7d).2.2.1 ("./a.js"),
   (c7_side_effect_load wNoTr wC7fs 0 wC7d).2.2.2 ("./a.js") (by decide)⟩

/-- C8: for an eager module-mode directive, the mapping entry of a matched
file that itself holds a nested glob directive carries a `modules` field
equal to the nested directive's own resolved mapping (the nested directive is
processed first); when every file the nested directive matches is itself
nested-free, that nested mapping is fuel-stable, i.e. fully resolved. -/
theorem c8_nested_mapping (tr : Transformers) (fs : List FileData) (fuel : Nat)
    (d nd : GlobDirective) (f : FileData) (k : String)
    (hk : k ∈ matchSetKeys (fs.map (fun g => g.path)) d)
    (hf : findFile fs d k = some f)
    (hmode : d.opts.asMode = .module)
    (hbind : d.opts.importBinding = none)
    (hn : f.nested = some nd) :
    (genMapping tr fs (fuel + 1) d).lookup k =
      some (.obj (("modules", .obj (genMapping tr fs fuel nd)) :: f.exportsBase)) ∧
    ((∀ g ∈ fs, dirMatches nd g.path = true → g.nested = none) →
      genMapping tr fs fuel nd = genMapping tr fs (fuel + 1) nd) := by
  constructor
  · rw [genMapping_lookup tr fs (fuel + 1) d k hk, hf]
    simp only [hmode, hbind, if_pos, applyBinding]
    rw [evalFile_nested tr fs fuel f nd hn]
  · intro hflat
    unfold genMapping
    apply List.map_congr_left
    intro k2 hk2
    cases hff : findFile fs nd k2 with
    | none => simp [hff]
    | some g =>
      have hgfs : g ∈ fs := by
        unfold findFile at hff
        exact List.mem_of_find?_eq_some hff
      have hgm : dirMatches nd g.path = true := by
        unfold findFile at hff
        have hgp := List.find?_some hff
        exact (Bool.and_eq_true _ _).mp hgp |>.1
      have hgn : g.nested = none := hflat g hgfs hgm
      simp [hff, evalFile_nested_none tr fs fs g hgn fuel (fuel + 1)]

/-- C8 witness: a concrete eager directive over a file holding a nested
directive. -/
theorem c8_nested_mapping_witness :
    (genMapping wNoTr wC8fs 2 wC8d).lookup ("./bar.js") =
      some (JsValue.obj [("modules", JsValue.obj (genMapping wNoTr wC8fs 1 wC8nd)),
        ("msg", JsValue.str ("bar"))]) ∧
    genMapping wNoTr wC8fs 1 wC8nd = genMapping wNoTr wC8fs 2 wC8nd :=
  ⟨(c8_nested_mapping wNoTr wC8fs 1 wC8d wC8nd wC8bar ("./bar.js")
      (by decide) rfl rfl rfl rfl).1,
   (c8_nested_mapping wNoTr wC8fs 1 wC8d wC8nd wC8bar ("./bar.js")
      (by decide) rfl rfl rfl rfl).2 (by decide)⟩

end VGlob

namespace VLog

/-- `output` never changes `hasWarned` or `warnedMessages`. -/
theorem output_hasWarned (cfg : LoggerConfig) (type : LogType) (msg : String)
    (opts : LogOptions) (s : LoggerState) :
    (output cfg type msg opts s).hasWarned = s.hasWarned ∧
      (output cfg type msg opts s).warnedMessages = s.warnedMessages := by
  unfold output
  cases opts.error <;>
    by_cases h1 : LogLevels type.toLogLevel ≤ cfg.thresh <;>
    by_cases h2 : cfg.canClearScreen <;>
    by_cases h3 : s.out.lastType = some type ∧ s.out.lastMsg = some msg <;>
    simp [h1, h2, h3]

/-- `warnOnce` of an already-warned message leaves the state untouched. -/
theorem warnOnce_of_mem (cfg : LoggerConfig) (msg : String) (o : LogOptions)
    (s : LoggerState) (h : msg ∈ s.warnedMessages) :
    Logger.warnOnce cfg msg o s = s := by
  unfold Logger.warnOnce
  rw [if_pos h]

/-- After any `warnOnce msg`, `msg` is recorded as warned. -/
theorem warnOnce_mem (cfg : LoggerConfig) (msg : String) (o : LogOptions)
    (s : LoggerState) : msg ∈ (Logger.warnOnce cfg msg o s).warnedMessages := by
  by_cases h : msg ∈ s.warnedMessages
  · rw [warnOnce_of_mem cfg msg o s h]
    exact h
  · unfold Logger.warnOnce
    rw [if_neg h]
    simp

/-- C9: `warnOnce` deduplicates repeated messages — a string-identical repeat
produces no output and adds nothing to the logged state: when the message is
already recorded the call is the identity on the whole logger state (lines
included), every call records the message, and a second `warnOnce` of the
same message after a first is the identity, so a message is emitted at most
once per logger. -/
theorem c9_warnOnce_dedup (cfg : LoggerConfig) (msg : String)
    (o1 o2 : LogOptions) (s : LoggerState) :
    (msg ∈ s.warnedMessages → Logger.warnOnce cfg msg o1 s = s) ∧
    msg ∈ (Logger.warnOnce cfg msg o1 s).warnedMessages ∧
    Logger.warnOnce cfg msg o2 (Logger.warnOnce cfg msg o1 s) =
      Logger.warnOnce cfg msg o1 s :=
  ⟨warnOnce_of_mem cfg msg o1 s, warnOnce_mem cfg msg o1 s,
   warnOnce_of_mem cfg msg o2 (Logger.warnOnce cfg msg o1 s) (warnOnce_mem cfg msg o1 s)⟩

/-- C9 witness: deduplication at a concrete logger state. -/
theorem c9_warnOnce_dedup_witness :
    Logger.warnOnce wCfg ("dup") wOpts wLS = wLS ∧
    "m" ∈ (Logger.warnOnce wCfg ("m") wOpts wLS).warnedMessages ∧
    Logger.warnOnce wCfg ("m") wOpts (Logger.warnOnce wCfg ("m") wOpts wLS) =
      Logger.warnOnce wCfg ("m") wOpts wLS :=
  ⟨(c9_warnOnce_dedup wCfg ("dup") wOpts wOpts wLS).1 (by decide),
   (c9_warnOnce_dedup wCfg ("m") wOpts wOpts wLS).2.1,
   (c9_warnOnce_dedup wCfg ("m") wOpts wOpts wLS).2.2⟩

/-- C10: for every logger built by `createLogger` at any level (`silent`
included), `hasWarned` starts `false`; `warn` and `error` always set it;
`warnOnce` of a not-yet-warned message sets it, even when the threshold
suppresses all output; and no operation of the logger interface ever resets
it to `false`. -/
theorem c10_hasWarned_monotone (level : LogLevel) (canClear : Bool)
    (tag now msg : String) (o : LogOptions) (s : LoggerState) :
    initialLoggerState.hasWarned = false ∧
    (Logger.warn (createLoggerConfig level canClear tag now) msg o s).hasWarned = true ∧
    (Logger.error (createLoggerConfig level canClear tag now) msg o s).hasWarned = true ∧
    (msg ∉ s.warnedMessages →
      (Logger.warnOnce (createLoggerConfig level canClear tag now) msg o s).hasWarned = true) ∧
    (∀ op : LoggerOp, s.hasWarned = true →
      (applyOp (createLoggerConfig level canClear tag now) op s).hasWarned = true) := by
  refine ⟨rfl, ?_, ?_, ?_, ?_⟩
  · unfold Logger.warn
    rw [(output_hasWarned _ _ _ _ _).1]
  · unfold Logger.error
    rw [(output_hasWarned _ _ _ _ _).1]
  · intro h
    unfold Logger.warnOnce
    rw [if_neg h]
    simp [(output_hasWarned _ _ _ _ _).1]
  · intro op hW
    cases op with
    | info m o2 =>
      simp only [applyOp, Logger.info]
      rw [(output_hasWarned _ _ _ _ _).1]
      exact hW
    | warn m o2 =>
      simp only [applyOp, Logger.warn]
      rw [(output_hasWarned _ _ _ _ _).1]
    | warnOnce m o2 =>
      simp only [applyOp]
      by_cases h : m ∈ s.warnedMessages
      · rw [warnOnce_of_mem _ _ _ _ h]
        exact hW
      · unfold Logger.warnOnce
        rw [if_neg h]
        simp [(output_hasWarned _ _ _ _ _).1]
    | error m o2 =>
      simp only [applyOp, Logger.error]
      rw [(output_hasWarned _ _ _ _ _).1]
    | clearScreen t =>
      exact hW

/-- C10 witness: a silent-level logger still flips `hasWarned`, and a
further operation keeps it set. -/
theorem c10_hasWarned_monotone_witness :
    initialLoggerState.hasWarned = false ∧
    (Logger.warn wCfgSilent ("m") wOpts initialLoggerState).hasWarned = true ∧
    (Logger.error wCfgSilent ("m") wOpts initialLoggerState).hasWarned = true ∧
    (Logger.warnOnce wCfgSilent ("m") wOpts initialLoggerState).hasWarned = true ∧
    (applyOp wCfgSilent (.info ("n") wOpts) wLS2).hasWarned = true :=
  ⟨(c10_hasWarned_monotone .silent true ("[vite]") ("t") ("m") wOpts initialLoggerState).1,
   (c10_hasWarned_monotone .silent true ("[vite]") ("t") ("m") wOpts initialLoggerState).2.1,
   (c10_hasWarned_monotone .silent true ("[vite]") ("t") ("m") wOpts initialLoggerState).2.2.1,
   (c10_hasWarned_monotone .silent true ("[vite]") ("t") ("m") wOpts
     initialLoggerState).2.2.2.1 (by decide),
   (c10_hasWarned_monotone .silent true ("[vite]") ("t") ("n") wOpts wLS2).2.2.2.2
     (.info ("n") wOpts) rfl⟩

end VLog
